import Mathlib

/-!
Verification development for the adversarial watermark-training orchestrator
`UnetModel` (source: `src/wm/model/unet/unet_model.py`).

The embedding models the per-batch training/validation control flow:
  * the configuration dictionary is a record of optional entries (a missing
    key raises, which we render as `Except.error (Err.keyError k)`);
  * tensors carry rational data (`T2`, a batch of rows); the external
    networks (`UnetEncoderDecoder`, `Discriminator`) are abstract functions
    bundled in `Ext`;
  * autograd is modelled at the granularity the orchestrator uses it:
    every tracked value (`TR`) records which of the two parameter sets its
    computation graph reaches (`depG` for the encoder-decoder, `depD` for
    the discriminator); `detach` clears both flags; `backward` appends a
    contribution tag to the gradient accumulator of every reached set;
    an optimizer step consumes its own gradient accumulator and rewrites
    only its own parameters and optimizer state;
  * the scalar losses are real numbers: binary cross-entropy with logits
    uses `Real.log`/`Real.exp`; mean-squared error and the bitwise error
    metric are exact rational computations (numpy rounds half to even,
    modelled by `roundHE`);
  * each call returns, besides the loss mapping and the raw tensors, the
    post-call state and (for training) the ordered trace of optimizer /
    forward / backward events, so that the two-phase protocol is a
    provable statement about the code.
-/

namespace HiddenWm

/-- Batch tensor: a list of rows of rational entries (images are flattened
to rows; messages are rows of length `message_length`). -/
abbrev T2 : Type := List (List ℚ)

/-- Train/eval mode flag of a torch module (`.train()` / `.eval()`). -/
inductive Mode
  | train
  | eval
deriving DecidableEq

/-- Keys of the configuration dictionary read by `UnetModel`. -/
inductive CfgKey
  | device
  | noise
  | main_command
  | message
  | encoder_blocks
  | decoder_blocks
  | decoder_channels
  | decoder_block_type
  | discriminator_channels
  | discriminator_blocks
  | adv_loss_weight
  | enc_loss_weight
  | dec_loss_weight
deriving DecidableEq

/-- Failure kinds surfaced by construction and by the batch methods. -/
inductive Err
  | shapeMismatch
  | keyError (k : CfgKey)
deriving DecidableEq

/-- Configuration dictionary: each recognized key is present (`some`) or
absent (`none`).  Weights are rational scalars. -/
structure Config where
  device : Option String
  noise : Option String
  main_command : Option String
  message : Option Nat
  encoder_blocks : Option Nat
  decoder_blocks : Option Nat
  decoder_channels : Option Nat
  decoder_block_type : Option String
  discriminator_channels : Option Nat
  discriminator_blocks : Option Nat
  adv_loss_weight : Option ℚ
  enc_loss_weight : Option ℚ
  dec_loss_weight : Option ℚ
deriving DecidableEq

/-- Modelled from the spec: the metric-name enumeration `LossNames`
(source file `wm/train/loss_names.py` is not under `src/`; the member
names below are the ones referenced by `unet_model.py`, and the Python
`.value` strings are abstracted into the enumeration itself).  The order
listed is the defined order of the seven metrics. -/
inductive LossNames
  | unet_loss
  | encoder_mse
  | decoder_mse
  | bitwise
  | gen_adv_bce
  | discr_cov_bce
  | discr_enc_bce
deriving DecidableEq

/-- Ordered loss mapping returned by the batch methods. -/
abbrev LossSet : Type := List (LossNames × ℝ)

/-- Tag recording which loss term contributed a gradient accumulation. -/
inductive GradTag
  | dLossOnCover
  | dLossOnEncoded
  | gLoss
deriving DecidableEq

/-- Input variants of a discriminator forward pass. -/
inductive DInp
  | cover
  | encodedDetached
  | encodedLive
deriving DecidableEq

/-- Events of the per-batch training protocol, in execution order. -/
inductive Ev
  | dZeroGrad
  | dForward (i : DInp)
  | backwardEv (t : GradTag)
  | dStepEv
  | gZeroGrad
  | gForward
  | gStepEv
deriving DecidableEq

/-- Tracked value: data plus the reachability of the two parameter sets in
its autograd graph (`depG`: encoder-decoder, `depD`: discriminator). -/
structure TR (α : Type) where
  val : α
  depG : Bool
  depD : Bool

/-- Leaf tensor: an input with no parameter in its history. -/
def leafT2 (v : T2) : TR T2 := ⟨v, false, false⟩

/-- The `.detach()` operation: same data, gradient flow cut. -/
def TR.detach {α : Type} (t : TR α) : TR α := ⟨t.val, false, false⟩

/-- Mutable state of a `UnetModel` instance: the two parameter sets, the
two Adam optimizer states, the two gradient accumulators (lists of
contribution tags, `[]` meaning all-zero gradients) and the two mode
flags. -/
structure MState (GP DP GO DO : Type) where
  encDecParams : GP
  discrimParams : DP
  encDecOpt : GO
  discrimOpt : DO
  encDecGrad : List GradTag
  discrimGrad : List GradTag
  encDecMode : Mode
  discrimMode : Mode

/-- External collaborators (the networks, the optimizer update rules and
the structural descriptions), abstracted as functions over abstract
parameter/optimizer-state types. -/
structure Ext (GP DP GO DO : Type) where
  encDecFwd : GP → Mode → T2 → T2 → T2 × T2 × T2
  discrimFwd : DP → Mode → T2 → List ℝ
  gStep : GP → GO → List GradTag → GP × GO
  dStep : DP → DO → List GradTag → DP × DO
  encDecDesc : GP → String
  discrimDesc : DP → String

/-- Label constant for cover images (`self.cover_label = 1`). -/
def cover_label : ℝ := 1

/-- Label constant for encoded images (`self.encoded_label = 0`). -/
def encoded_label : ℝ := 0

/-- Logistic sigmoid, as used by `binary_cross_entropy_with_logits`. -/
noncomputable def sigmoid (x : ℝ) : ℝ := 1 / (1 + Real.exp (-x))

/-- Per-element binary cross-entropy with logits against target `y`. -/
noncomputable def bceWithLogits1 (s y : ℝ) : ℝ :=
  -(y * Real.log (sigmoid s) + (1 - y) * Real.log (1 - sigmoid s))

/-- Mean binary cross-entropy of a score column against the constant
target `y` (the label tensors are constant-filled). -/
noncomputable def bceMean (scores : List ℝ) (y : ℝ) : ℝ :=
  (scores.map (fun s => bceWithLogits1 s y)).sum / scores.length

/-- Row of squared differences, summed. -/
def sqDiffRow (r s : List ℚ) : ℚ := ((r.zip s).map (fun p => (p.1 - p.2) ^ 2)).sum

/-- Sum of squared elementwise differences of two batches. -/
def sumSqDiff (a b : T2) : ℚ := ((a.zip b).map (fun p => sqDiffRow p.1 p.2)).sum

/-- Number of elementwise pairs of two batches (the element count, when
the shapes agree). -/
def countPairs (a b : T2) : ℚ := ((a.zip b).map (fun p => ((p.1.zip p.2).length : ℚ))).sum

/-- Mean squared error `f.mse_loss` (mean over all elements). -/
def mse_loss (a b : T2) : ℚ := sumSqDiff a b / countPairs a b

/-- Numpy `round`: round half to even. -/
def roundHE (x : ℚ) : ℤ :=
  let n : ℤ := ⌊x⌋
  let frac : ℚ := x - n
  if frac < 1 / 2 then n
  else if 1 / 2 < frac then n + 1
  else if n % 2 = 0 then n else n + 1

/-- Clamp to the interval `[0, 1]` (numpy `clip(0, 1)`). -/
def clip01 (x : ℚ) : ℚ := if x < 0 then 0 else if 1 < x then 1 else x

/-- One decoded entry after `round().clip(0, 1)`. -/
def roundClip (x : ℚ) : ℚ := clip01 ((roundHE x : ℤ) : ℚ)

/-- The rounded decoded-message batch `decoded_rounded`. -/
def decodedRounded (decoded : T2) : T2 := decoded.map (fun r => r.map roundClip)

/-- Row of absolute differences, summed. -/
def absDiffRow (r s : List ℚ) : ℚ := ((r.zip s).map (fun p => |p.1 - p.2|)).sum

/-- Sum of absolute elementwise differences of two batches. -/
def sumAbsDiff (a b : T2) : ℚ := ((a.zip b).map (fun p => absDiffRow p.1 p.2)).sum

/-- Bitwise average error metric (lines 91-93 / 144-146 of the source):
round-and-clip the decoded messages, sum the absolute differences from the
true messages and divide by `batch_size * messages.shape[1]`. -/
def bitwise_avg_err (batchSize msgLen : ℕ) (decoded messages : T2) : ℚ :=
  sumAbsDiff (decodedRounded decoded) messages / ((batchSize : ℚ) * (msgLen : ℚ))

section StateOps

variable {GP DP GO DO : Type}

/-- The `self.optimizer_discrim.zero_grad()` call. -/
def zeroGradDiscrim (st : MState GP DP GO DO) : MState GP DP GO DO :=
  { st with discrimGrad := [] }

/-- The `self.optimizer_enc_dec.zero_grad()` call. -/
def zeroGradEncDec (st : MState GP DP GO DO) : MState GP DP GO DO :=
  { st with encDecGrad := [] }

/-- Switch both sub-models into training mode (`.train()` calls). -/
def setTrainModes (st : MState GP DP GO DO) : MState GP DP GO DO :=
  { st with encDecMode := Mode.train, discrimMode := Mode.train }

/-- Switch both sub-models into evaluation mode (`.eval()` calls). -/
def setEvalModes (st : MState GP DP GO DO) : MState GP DP GO DO :=
  { st with encDecMode := Mode.eval, discrimMode := Mode.eval }

/-- A `loss.backward()` call: append a contribution tag to the gradient
accumulator of every parameter set reached by the loss's graph. -/
def backwardOn (t : TR ℝ) (tag : GradTag) (st : MState GP DP GO DO) : MState GP DP GO DO :=
  { st with
    encDecGrad := if t.depG then st.encDecGrad ++ [tag] else st.encDecGrad
    discrimGrad := if t.depD then st.discrimGrad ++ [tag] else st.discrimGrad }

/-- The `self.optimizer_discrim.step()` call: rewrites the discriminator
parameters and optimizer state from the discriminator gradients; touches
nothing else (gradients are not cleared by a step). -/
def stepDiscrim (ext : Ext GP DP GO DO) (st : MState GP DP GO DO) : MState GP DP GO DO :=
  { st with
    discrimParams := (ext.dStep st.discrimParams st.discrimOpt st.discrimGrad).1
    discrimOpt := (ext.dStep st.discrimParams st.discrimOpt st.discrimGrad).2 }

/-- The `self.optimizer_enc_dec.step()` call. -/
def stepEncDec (ext : Ext GP DP GO DO) (st : MState GP DP GO DO) : MState GP DP GO DO :=
  { st with
    encDecParams := (ext.gStep st.encDecParams st.encDecOpt st.encDecGrad).1
    encDecOpt := (ext.gStep st.encDecParams st.encDecOpt st.encDecGrad).2 }

/-- A discriminator forward pass on a tracked input: the output graph
reaches the discriminator parameters and whatever the input reached. -/
def discrimApply (ext : Ext GP DP GO DO) (st : MState GP DP GO DO) (x : TR T2) : TR (List ℝ) :=
  ⟨ext.discrimFwd st.discrimParams st.discrimMode x.val, x.depG, true⟩

/-- Mean BCE-with-logits of a tracked score column against a constant
label; the loss inherits the scores' graph. -/
noncomputable def bceApply (s : TR (List ℝ)) (y : ℝ) : TR ℝ :=
  ⟨bceMean s.val y, s.depG, s.depD⟩

/-- Tracked mean-squared-error loss; the loss graph is the union of the
argument graphs. -/
def mseApply (a b : TR T2) : TR ℝ :=
  ⟨((mse_loss a.val b.val : ℚ) : ℝ), a.depG || b.depG, a.depD || b.depD⟩

/-- Shape precondition of the encoder-decoder forward pass: aligned batch
dimensions and every message row of the configured length. -/
def shapeOkb (msgLen : ℕ) (images messages : T2) : Bool :=
  images.length == messages.length && messages.all (fun r => r.length == msgLen)

/-- Modelled from the spec: the `UnetEncoderDecoder` forward pass (its
source `wm/model/unet/encoder_decoder.py` is not under `src/`).  Per the
spec it fails with a shape mismatch when the batch dimensions of images
and messages disagree or a message row differs from the configured
message length, and otherwise returns
`(encoded_images, noised_images, decoded_messages)`. -/
def encDecChecked (ext : Ext GP DP GO DO) (p : GP) (mode : Mode) (msgLen : ℕ)
    (images messages : T2) : Except Err (T2 × T2 × T2) :=
  if shapeOkb msgLen images messages then
    Except.ok (ext.encDecFwd p mode images messages)
  else
    Except.error Err.shapeMismatch

/-- Tracked encoder-decoder forward pass: the outputs' graphs reach the
encoder-decoder parameters (and whatever the inputs reached). -/
def encDecApply (ext : Ext GP DP GO DO) (st : MState GP DP GO DO) (msgLen : ℕ)
    (images messages : TR T2) : Except Err (TR T2 × TR T2 × TR T2) :=
  match encDecChecked ext st.encDecParams st.encDecMode msgLen images.val messages.val with
  | Except.error e => Except.error e
  | Except.ok t =>
    Except.ok (⟨t.1, true, images.depD || messages.depD⟩,
               ⟨t.2.1, true, images.depD || messages.depD⟩,
               ⟨t.2.2, true, images.depD || messages.depD⟩)

/-- Values carried from the discriminator phase into the generator phase
of `train_on_batch`. -/
structure DPhaseOut where
  encoded : TR T2
  noised : TR T2
  decoded : TR T2
  d_loss_on_cover : TR ℝ
  d_loss_on_encoded : TR ℝ

/-- Discriminator phase of `train_on_batch` (lines 57-74): clear the
discriminator gradients, score the cover images and backpropagate against
the cover label, run the single encoder-decoder forward pass, score a
detached copy of the encoded images and backpropagate against the encoded
label, then step the discriminator optimizer.  Returns the carried
values, the post-phase state and the event trace. -/
noncomputable def discrimPhase (ext : Ext GP DP GO DO) (msgLen : ℕ)
    (st : MState GP DP GO DO) (images messages : T2) :
    Except Err DPhaseOut × MState GP DP GO DO × List Ev :=
  let st0 := zeroGradDiscrim st
  let d_on_cover := discrimApply ext st0 (leafT2 images)
  let d_loss_on_cover := bceApply d_on_cover cover_label
  let st1 := backwardOn d_loss_on_cover GradTag.dLossOnCover st0
  match encDecApply ext st1 msgLen (leafT2 images) (leafT2 messages) with
  | Except.error e =>
    (Except.error e, st1,
     [Ev.dZeroGrad, Ev.dForward DInp.cover, Ev.backwardEv GradTag.dLossOnCover])
  | Except.ok t =>
    let encoded := t.1
    let noised := t.2.1
    let decoded := t.2.2
    let d_on_encoded := discrimApply ext st1 encoded.detach
    let d_loss_on_encoded := bceApply d_on_encoded encoded_label
    let st2 := backwardOn d_loss_on_encoded GradTag.dLossOnEncoded st1
    let st3 := stepDiscrim ext st2
    (Except.ok ⟨encoded, noised, decoded, d_loss_on_cover, d_loss_on_encoded⟩, st3,
     [Ev.dZeroGrad, Ev.dForward DInp.cover, Ev.backwardEv GradTag.dLossOnCover,
      Ev.gForward, Ev.dForward DInp.encodedDetached, Ev.backwardEv GradTag.dLossOnEncoded,
      Ev.dStepEv])

/-- Scalar losses produced by the generator phase. -/
structure GPhaseOut where
  g_loss : TR ℝ
  g_loss_enc : TR ℝ
  g_loss_dec : TR ℝ
  g_loss_adv : TR ℝ

/-- Generator phase of `train_on_batch` (lines 76-89): clear the
encoder-decoder gradients, re-evaluate the discriminator on the
non-detached encoded images against the cover label, compose the joint
loss (reading the weights from the configuration, the decoder weight
defaulting to 1), backpropagate it and step the encoder-decoder
optimizer. -/
noncomputable def genPhase (ext : Ext GP DP GO DO) (cfg : Config)
    (st : MState GP DP GO DO) (images messages : T2) (ph : DPhaseOut) :
    Except Err GPhaseOut × MState GP DP GO DO × List Ev :=
  let st0 := zeroGradEncDec st
  let d_on_encoded_for_enc := discrimApply ext st0 ph.encoded
  let g_loss_adv := bceApply d_on_encoded_for_enc cover_label
  let g_loss_enc := mseApply ph.encoded (leafT2 images)
  let g_loss_dec := mseApply ph.decoded (leafT2 messages)
  match cfg.adv_loss_weight with
  | none => (Except.error (Err.keyError CfgKey.adv_loss_weight), st0,
             [Ev.gZeroGrad, Ev.dForward DInp.encodedLive])
  | some wa =>
    match cfg.enc_loss_weight with
    | none => (Except.error (Err.keyError CfgKey.enc_loss_weight), st0,
               [Ev.gZeroGrad, Ev.dForward DInp.encodedLive])
    | some we =>
      let wd := cfg.dec_loss_weight.getD 1
      let g_loss : TR ℝ :=
        ⟨(wa : ℝ) * g_loss_adv.val + (we : ℝ) * g_loss_enc.val + (wd : ℝ) * g_loss_dec.val,
         g_loss_adv.depG || g_loss_enc.depG || g_loss_dec.depG,
         g_loss_adv.depD || g_loss_enc.depD || g_loss_dec.depD⟩
      let st1 := backwardOn g_loss GradTag.gLoss st0
      let st2 := stepEncDec ext st1
      (Except.ok ⟨g_loss, g_loss_enc, g_loss_dec, g_loss_adv⟩, st2,
       [Ev.gZeroGrad, Ev.dForward DInp.encodedLive, Ev.backwardEv GradTag.gLoss,
        Ev.gStepEv])

/-- The `UnetModel.train_on_batch` method: switch both sub-models to
training mode, run the discriminator phase then the generator phase,
compute the bitwise error metric and assemble the ordered loss mapping.
Returns the result (or the raised error), the post-call state and the
event trace. -/
noncomputable def train_on_batch (ext : Ext GP DP GO DO) (cfg : Config) (msgLen : ℕ)
    (st : MState GP DP GO DO) (images messages : T2) :
    Except Err (LossSet × (T2 × T2 × T2)) × MState GP DP GO DO × List Ev :=
  let stm := setTrainModes st
  let dp := discrimPhase ext msgLen stm images messages
  match dp.1 with
  | Except.error e => (Except.error e, dp.2.1, dp.2.2)
  | Except.ok ph =>
    let gp := genPhase ext cfg dp.2.1 images messages ph
    match gp.1 with
    | Except.error e => (Except.error e, gp.2.1, dp.2.2 ++ gp.2.2)
    | Except.ok g =>
      let berr := bitwise_avg_err images.length (messages.headD []).length ph.decoded.val messages
      (Except.ok
        ([(LossNames.unet_loss, g.g_loss.val),
          (LossNames.encoder_mse, g.g_loss_enc.val),
          (LossNames.decoder_mse, g.g_loss_dec.val),
          (LossNames.bitwise, ((berr : ℚ) : ℝ)),
          (LossNames.gen_adv_bce, g.g_loss_adv.val),
          (LossNames.discr_cov_bce, ph.d_loss_on_cover.val),
          (LossNames.discr_enc_bce, ph.d_loss_on_encoded.val)],
         (ph.encoded.val, ph.noised.val, ph.decoded.val)),
       gp.2.1, dp.2.2 ++ gp.2.2)

/-- The `UnetModel.validate_on_batch` method: switch both sub-models to
evaluation mode, compute the same forward passes and losses without
gradient tracking, never touching gradients, optimizers or parameters. -/
noncomputable def validate_on_batch (ext : Ext GP DP GO DO) (cfg : Config) (msgLen : ℕ)
    (st : MState GP DP GO DO) (images messages : T2) :
    Except Err (LossSet × (T2 × T2 × T2)) × MState GP DP GO DO :=
  let stm := setEvalModes st
  let d_on_cover := ext.discrimFwd stm.discrimParams stm.discrimMode images
  let d_loss_on_cover := bceMean d_on_cover cover_label
  match encDecChecked ext stm.encDecParams stm.encDecMode msgLen images messages with
  | Except.error e => (Except.error e, stm)
  | Except.ok t =>
    let encoded := t.1
    let noised := t.2.1
    let decoded := t.2.2
    let d_on_encoded := ext.discrimFwd stm.discrimParams stm.discrimMode encoded
    let d_loss_on_encoded := bceMean d_on_encoded encoded_label
    let d_on_encoded_for_enc := ext.discrimFwd stm.discrimParams stm.discrimMode encoded
    let g_loss_adv := bceMean d_on_encoded_for_enc cover_label
    let g_loss_enc := mse_loss encoded images
    let g_loss_dec := mse_loss decoded messages
    match cfg.adv_loss_weight with
    | none => (Except.error (Err.keyError CfgKey.adv_loss_weight), stm)
    | some wa =>
      match cfg.enc_loss_weight with
      | none => (Except.error (Err.keyError CfgKey.enc_loss_weight), stm)
      | some we =>
        let wd := cfg.dec_loss_weight.getD 1
        let g_loss := (wa : ℝ) * g_loss_adv + (we : ℝ) * ((g_loss_enc : ℚ) : ℝ)
                      + (wd : ℝ) * ((g_loss_dec : ℚ) : ℝ)
        let berr := bitwise_avg_err images.length (messages.headD []).length decoded messages
        (Except.ok
          ([(LossNames.unet_loss, g_loss),
            (LossNames.encoder_mse, ((g_loss_enc : ℚ) : ℝ)),
            (LossNames.decoder_mse, ((g_loss_dec : ℚ) : ℝ)),
            (LossNames.bitwise, ((berr : ℚ) : ℝ)),
            (LossNames.gen_adv_bce, g_loss_adv),
            (LossNames.discr_cov_bce, d_loss_on_cover),
            (LossNames.discr_enc_bce, d_loss_on_encoded)],
           (encoded, noised, decoded)),
         stm)

/-- The `UnetModel.__str__` method: `return str(self.encoder_decoder)`. -/
def unetModelStr (ext : Ext GP DP GO DO) (st : MState GP DP GO DO) : String :=
  ext.encDecDesc st.encDecParams

/-- The `UnetModel.__repr__` method: `return str(self.encoder_decoder)`. -/
def unetModelRepr (ext : Ext GP DP GO DO) (st : MState GP DP GO DO) : String :=
  ext.encDecDesc st.encDecParams

end StateOps

/-- Values extracted from the configuration by `UnetModel.__init__`. -/
structure InitOut where
  device : String
  noise : String
  main_command : String
  message : Nat
  encoder_blocks : Nat
  decoder_blocks : Nat
  decoder_channels : Nat
  decoder_block_type : String
  discriminator_channels : Nat
  discriminator_blocks : Nat

/-- The `UnetModel.__init__` constructor restricted to its configuration
accesses, in source order (lines 16-27): each bracket access on a missing
key raises, rendered as `Err.keyError`.  The loss-weight keys are not
read here. -/
def initModel (cfg : Config) : Except Err InitOut :=
  match cfg.device with
  | none => Except.error (Err.keyError CfgKey.device)
  | some dev =>
    match cfg.noise with
    | none => Except.error (Err.keyError CfgKey.noise)
    | some noi =>
      match cfg.main_command with
      | none => Except.error (Err.keyError CfgKey.main_command)
      | some mc =>
        match cfg.message with
        | none => Except.error (Err.keyError CfgKey.message)
        | some msg =>
          match cfg.encoder_blocks with
          | none => Except.error (Err.keyError CfgKey.encoder_blocks)
          | some eb =>
            match cfg.decoder_blocks with
            | none => Except.error (Err.keyError CfgKey.decoder_blocks)
            | some db =>
              match cfg.decoder_channels with
              | none => Except.error (Err.keyError CfgKey.decoder_channels)
              | some dc =>
                match cfg.decoder_block_type with
                | none => Except.error (Err.keyError CfgKey.decoder_block_type)
                | some dbt =>
                  match cfg.discriminator_channels with
                  | none => Except.error (Err.keyError CfgKey.discriminator_channels)
                  | some dch =>
                    match cfg.discriminator_blocks with
                    | none => Except.error (Err.keyError CfgKey.discriminator_blocks)
                    | some dbl =>
                      Except.ok ⟨dev, noi, mc, msg, eb, db, dc, dbt, dch, dbl⟩

/-- Helper: the loss mapping of a successful result, `[]` on error. -/
def lossesOf (r : Except Err (LossSet × (T2 × T2 × T2))) : LossSet :=
  match r with
  | Except.ok t => t.1
  | Except.error _ => []

/-- Helper: look up a metric value by name in a loss mapping (the value
of the first entry carrying the name, `0` when absent). -/
def lookupLoss (ls : LossSet) (k : LossNames) : ℝ :=
  match ls with
  | [] => 0
  | p :: rest => if p.1 = k then p.2 else lookupLoss rest k

/-! Concrete instantiations used by the witnesses: trivial external
networks over unit parameter types, a fresh state, small configurations
and a small batch. -/

/-- Trivial external collaborators over unit parameter/optimizer types. -/
def extTriv : Ext Unit Unit Unit Unit where
  encDecFwd := fun _ _ i m => (i, i, m)
  discrimFwd := fun _ _ _ => [0]
  gStep := fun p o _ => (p, o)
  dStep := fun p o _ => (p, o)
  encDecDesc := fun _ => "UnetEncoderDecoder"
  discrimDesc := fun _ => "Discriminator"

/-- A freshly constructed state: empty gradient accumulators, eval mode. -/
def st0 : MState Unit Unit Unit Unit :=
  ⟨(), (), (), (), [], [], Mode.eval, Mode.eval⟩

/-- A configuration with every recognized key present. -/
def cfgFull : Config :=
  ⟨some "cpu", some "jpeg", some "unet-conv", some 2, some 4, some 4, some 64,
   some "conv", some 64, some 3, some 1, some 1, some 1⟩

/-- A configuration missing only `adv_loss_weight` (and the optional
`dec_loss_weight`). -/
def cfgNoAdv : Config :=
  ⟨some "cpu", some "jpeg", some "unet-conv", some 2, some 4, some 4, some 64,
   some "conv", some 64, some 3, none, some 1, none⟩

/-- A small batch: two images of two pixels each. -/
def imgs0 : T2 := [[0, 0], [0, 0]]

/-- Two two-bit messages, batch-aligned with `imgs0`. -/
def msgs0 : T2 := [[0, 1], [1, 0]]

/-! Arithmetic facts about the loss and metric functions. -/

lemma sigmoid_pos (x : ℝ) : 0 < sigmoid x := by
  unfold sigmoid
  positivity

lemma sigmoid_lt_one (x : ℝ) : sigmoid x < 1 := by
  unfold sigmoid
  rw [div_lt_one (by positivity)]
  linarith [Real.exp_pos (-x)]

lemma bceWithLogits1_nonneg (s y : ℝ) (h0 : 0 ≤ y) (h1 : y ≤ 1) :
    0 ≤ bceWithLogits1 s y := by
  unfold bceWithLogits1
  have hp := sigmoid_pos s
  have hl := sigmoid_lt_one s
  have l1 : Real.log (sigmoid s) ≤ 0 := Real.log_nonpos (le_of_lt hp) (le_of_lt hl)
  have l2 : Real.log (1 - sigmoid s) ≤ 0 := Real.log_nonpos (by linarith) (by linarith)
  nlinarith [mul_nonneg h0 (neg_nonneg.mpr l1), mul_nonneg (by linarith : 0 ≤ 1 - y) (neg_nonneg.mpr l2)]

lemma bceMean_nonneg (scores : List ℝ) (y : ℝ) (h0 : 0 ≤ y) (h1 : y ≤ 1) :
    0 ≤ bceMean scores y := by
  unfold bceMean
  apply div_nonneg _ (Nat.cast_nonneg _)
  apply List.sum_nonneg
  intro x hx
  obtain ⟨s, _, rfl⟩ := List.mem_map.mp hx
  exact bceWithLogits1_nonneg s y h0 h1

lemma sumSqDiff_nonneg (a b : T2) : 0 ≤ sumSqDiff a b := by
  unfold sumSqDiff
  apply List.sum_nonneg
  intro x hx
  obtain ⟨p, _, rfl⟩ := List.mem_map.mp hx
  unfold sqDiffRow
  apply List.sum_nonneg
  intro z hz
  obtain ⟨q, _, rfl⟩ := List.mem_map.mp hz
  positivity

lemma countPairs_nonneg (a b : T2) : 0 ≤ countPairs a b := by
  unfold countPairs
  apply List.sum_nonneg
  intro x hx
  obtain ⟨p, _, rfl⟩ := List.mem_map.mp hx
  exact Nat.cast_nonneg _

lemma mse_loss_nonneg (a b : T2) : 0 ≤ mse_loss a b :=
  div_nonneg (sumSqDiff_nonneg a b) (countPairs_nonneg a b)

lemma absDiffRow_nonneg (r s : List ℚ) : 0 ≤ absDiffRow r s := by
  unfold absDiffRow
  apply List.sum_nonneg
  intro x hx
  obtain ⟨p, _, rfl⟩ := List.mem_map.mp hx
  exact abs_nonneg _

lemma sumAbsDiff_nonneg (a b : T2) : 0 ≤ sumAbsDiff a b := by
  unfold sumAbsDiff
  apply List.sum_nonneg
  intro x hx
  obtain ⟨p, _, rfl⟩ := List.mem_map.mp hx
  exact absDiffRow_nonneg _ _

lemma bitwise_avg_err_nonneg (n l : ℕ) (d m : T2) : 0 ≤ bitwise_avg_err n l d m :=
  div_nonneg (sumAbsDiff_nonneg _ _) (by positivity)

lemma roundClip_nonneg (x : ℚ) : 0 ≤ roundClip x := by
  unfold roundClip clip01
  split_ifs with h1 h2 <;> linarith

lemma roundClip_le_one (x : ℚ) : roundClip x ≤ 1 := by
  unfold roundClip clip01
  split_ifs with h1 h2 <;> linarith

lemma list_sum_le_length_mul (l : List ℚ) (c : ℚ) (h : ∀ x ∈ l, x ≤ c) :
    l.sum ≤ (l.length : ℚ) * c := by
  have := List.sum_le_card_nsmul l c h
  simpa [nsmul_eq_mul] using this

lemma absDiffRow_le (r s : List ℚ) (hr : ∀ x ∈ r, 0 ≤ x ∧ x ≤ 1)
    (hs : ∀ y ∈ s, y = 0 ∨ y = 1) :
    absDiffRow r s ≤ ((r.zip s).length : ℚ) := by
  unfold absDiffRow
  have h := list_sum_le_length_mul ((r.zip s).map (fun p => |p.1 - p.2|)) 1 ?_
  · simpa using h
  · intro x hx
    obtain ⟨p, hp, rfl⟩ := List.mem_map.mp hx
    have hmem := List.of_mem_zip hp
    obtain ⟨h1, h2⟩ := hr p.1 hmem.1
    rcases hs p.2 hmem.2 with h | h <;> rw [h] <;>
      exact abs_le.mpr ⟨by linarith, by linarith⟩

lemma sumAbsDiff_le (a b : T2) (l : ℕ)
    (ha : ∀ r ∈ a, (∀ x ∈ r, 0 ≤ x ∧ x ≤ 1) ∧ r.length = l)
    (hb : ∀ s ∈ b, (∀ y ∈ s, y = 0 ∨ y = 1) ∧ s.length = l) :
    sumAbsDiff a b ≤ ((a.zip b).length : ℚ) * l := by
  unfold sumAbsDiff
  have h := list_sum_le_length_mul ((a.zip b).map (fun p => absDiffRow p.1 p.2)) l ?_
  · simpa using h
  · intro x hx
    obtain ⟨p, hp, rfl⟩ := List.mem_map.mp hx
    have hmem := List.of_mem_zip hp
    have hra := ha p.1 hmem.1
    have hrb := hb p.2 hmem.2
    have := absDiffRow_le p.1 p.2 hra.1 hrb.1
    calc absDiffRow p.1 p.2 ≤ ((p.1.zip p.2).length : ℚ) := this
    _ ≤ l := by
        rw [List.length_zip, hra.2, hrb.2]
        simp

lemma absDiffRow_self (r : List ℚ) : absDiffRow r r = 0 := by
  induction r with
  | nil => rfl
  | cons x t ih =>
    show absDiffRow (x :: t) (x :: t) = 0
    unfold absDiffRow at ih ⊢
    simp [List.zip_cons_cons, ih]

lemma sumAbsDiff_self (a : T2) : sumAbsDiff a a = 0 := by
  induction a with
  | nil => rfl
  | cons r t ih =>
    show sumAbsDiff (r :: t) (r :: t) = 0
    unfold sumAbsDiff at ih ⊢
    simp [List.zip_cons_cons, ih, absDiffRow_self]

lemma absDiffRow_flip (s : List ℚ) (hs : ∀ y ∈ s, y = 0 ∨ y = 1) :
    absDiffRow (s.map (fun y => 1 - y)) s = (s.length : ℚ) := by
  induction s with
  | nil => simp [absDiffRow]
  | cons y t ih =>
    have hy := hs y (List.mem_cons_self y t)
    have ht := ih (fun z hz => hs z (List.mem_cons_of_mem y hz))
    unfold absDiffRow at ht ⊢
    simp only [List.map_cons, List.zip_cons_cons, List.sum_cons, List.length_cons]
    rw [ht]
    rcases hy with h | h <;> rw [h] <;> push_cast <;> simp [abs_of_nonneg, abs_of_nonpos] <;> ring

lemma sumAbsDiff_flip (m : T2) (l : ℕ)
    (hm : ∀ s ∈ m, (∀ y ∈ s, y = 0 ∨ y = 1) ∧ s.length = l) :
    sumAbsDiff (m.map (fun s => s.map (fun y => 1 - y))) m = (m.length : ℚ) * l := by
  induction m with
  | nil => simp [sumAbsDiff]
  | cons s t ih =>
    have hsm := hm s (List.mem_cons_self s t)
    have ht := ih (fun z hz => hm z (List.mem_cons_of_mem s hz))
    unfold sumAbsDiff at ht ⊢
    simp only [List.map_cons, List.zip_cons_cons, List.sum_cons, List.length_cons]
    rw [ht, absDiffRow_flip s hsm.1, hsm.2]
    push_cast
    ring

lemma decodedRounded_entry_bounds (decoded : T2) :
    ∀ r ∈ decodedRounded decoded, ∀ x ∈ r, 0 ≤ x ∧ x ≤ 1 := by
  intro r hr x hx
  obtain ⟨r0, _, rfl⟩ := List.mem_map.mp hr
  obtain ⟨x0, _, rfl⟩ := List.mem_map.mp hx
  exact ⟨roundClip_nonneg x0, roundClip_le_one x0⟩

/-- Claim C4: the bitwise error metric rounds the decoded messages to
`{0,1}` (numpy half-to-even rounding, then clamping to `[0,1]`), sums the
absolute differences from the true messages and divides by
`N * message_length`; for binary true messages it always lies in `[0,1]`,
equals `0` when the rounded decoded messages equal the true messages
exactly, and equals `1` when every bit is flipped. -/
theorem c4_bitwise_error_metric (n l : ℕ) (decoded messages : T2)
    (hdn : decoded.length = n) (hmn : messages.length = n)
    (hdl : ∀ r ∈ decoded, r.length = l) (hml : ∀ r ∈ messages, r.length = l)
    (hbin : ∀ r ∈ messages, ∀ y ∈ r, y = 0 ∨ y = 1)
    (hn : 0 < n) (hl : 0 < l) :
    (0 ≤ bitwise_avg_err n l decoded messages
      ∧ bitwise_avg_err n l decoded messages ≤ 1)
    ∧ (decodedRounded decoded = messages → bitwise_avg_err n l decoded messages = 0)
    ∧ (decodedRounded decoded = messages.map (fun r => r.map (fun y => 1 - y)) →
        bitwise_avg_err n l decoded messages = 1) := by
  have hnq : (0 : ℚ) < n := by exact_mod_cast hn
  have hlq : (0 : ℚ) < l := by exact_mod_cast hl
  have hden : (0 : ℚ) < (n : ℚ) * l := mul_pos hnq hlq
  refine ⟨⟨bitwise_avg_err_nonneg n l decoded messages, ?_⟩, ?_, ?_⟩
  · unfold bitwise_avg_err
    rw [div_le_one hden]
    have hb : ∀ s ∈ messages, (∀ y ∈ s, y = 0 ∨ y = 1) ∧ s.length = l :=
      fun s hs => ⟨hbin s hs, hml s hs⟩
    have ha : ∀ r ∈ decodedRounded decoded, (∀ x ∈ r, 0 ≤ x ∧ x ≤ 1) ∧ r.length = l := by
      intro r hr
      refine ⟨decodedRounded_entry_bounds decoded r hr, ?_⟩
      obtain ⟨r0, hr0, rfl⟩ := List.mem_map.mp hr
      simpa using hdl r0 hr0
    have h := sumAbsDiff_le (decodedRounded decoded) messages l ha hb
    calc sumAbsDiff (decodedRounded decoded) messages
        ≤ (((decodedRounded decoded).zip messages).length : ℚ) * l := h
    _ ≤ (n : ℚ) * l := by
        apply mul_le_mul_of_nonneg_right _ (le_of_lt hlq)
        rw [List.length_zip]
        have : (decodedRounded decoded).length = n := by
          unfold decodedRounded
          simpa using hdn
        rw [this, hmn]
        simp
  · intro heq
    unfold bitwise_avg_err
    rw [heq, sumAbsDiff_self, zero_div]
  · intro hflip
    unfold bitwise_avg_err
    rw [hflip, sumAbsDiff_flip messages l
      (fun s hs => ⟨hbin s hs, hml s hs⟩), hmn, div_self (ne_of_gt hden)]

lemma roundClip_eval_02 : roundClip (2/10) = 0 := by
  norm_num [roundClip, clip01, roundHE]

lemma roundClip_eval_08 : roundClip (8/10) = 1 := by
  norm_num [roundClip, clip01, roundHE]

lemma roundClip_eval_09 : roundClip (9/10) = 1 := by
  norm_num [roundClip, clip01, roundHE]

lemma roundClip_eval_03 : roundClip (3/10) = 0 := by
  norm_num [roundClip, clip01, roundHE]

lemma decodedRounded_eval_eq : decodedRounded [[(2 : ℚ)/10, (8 : ℚ)/10]] = [[0, 1]] := by
  simp [decodedRounded, roundClip_eval_02, roundClip_eval_08]

lemma decodedRounded_eval_flip :
    decodedRounded [[(9 : ℚ)/10, (3 : ℚ)/10]]
      = ([[0, 1]] : T2).map (fun r => r.map (fun y => 1 - y)) := by
  simp [decodedRounded, roundClip_eval_09, roundClip_eval_03]

/-- Witness for C4 at concrete inputs: a batch of one two-bit message
`[0, 1]`, once with decoded values `[0.2, 0.8]` (rounds to the message
exactly) and once with `[0.9, 0.3]` (rounds to every bit flipped). -/
theorem c4_bitwise_error_metric_witness :
    (decodedRounded [[(2 : ℚ)/10, (8 : ℚ)/10]] = [[0, 1]]
      ∧ decodedRounded [[(9 : ℚ)/10, (3 : ℚ)/10]]
          = ([[0, 1]] : T2).map (fun r => r.map (fun y => 1 - y))
      ∧ ([[(0 : ℚ), 1]] : T2).length = 1 ∧ 0 < 2)
    ∧ (0 ≤ bitwise_avg_err 1 2 [[(2 : ℚ)/10, (8 : ℚ)/10]] [[0, 1]]
        ∧ bitwise_avg_err 1 2 [[(2 : ℚ)/10, (8 : ℚ)/10]] [[0, 1]] ≤ 1)
    ∧ bitwise_avg_err 1 2 [[(2 : ℚ)/10, (8 : ℚ)/10]] [[0, 1]] = 0
    ∧ bitwise_avg_err 1 2 [[(9 : ℚ)/10, (3 : ℚ)/10]] [[0, 1]] = 1 := by
  refine ⟨⟨decodedRounded_eval_eq, decodedRounded_eval_flip, by decide, by decide⟩, ?_, ?_, ?_⟩
  · exact (c4_bitwise_error_metric 1 2 [[(2 : ℚ)/10, (8 : ℚ)/10]] [[0, 1]]
      (by decide) (by decide) (by decide) (by decide) (by decide)
      (by decide) (by decide)).1
  · exact (c4_bitwise_error_metric 1 2 [[(2 : ℚ)/10, (8 : ℚ)/10]] [[0, 1]]
      (by decide) (by decide) (by decide) (by decide) (by decide)
      (by decide) (by decide)).2.1 decodedRounded_eval_eq
  · exact (c4_bitwise_error_metric 1 2 [[(9 : ℚ)/10, (3 : ℚ)/10]] [[0, 1]]
      (by decide) (by decide) (by decide) (by decide) (by decide)
      (by decide) (by decide)).2.2 decodedRounded_eval_flip

/-! Frame lemmas about the per-phase state transformations. -/

section FrameLemmas

variable {GP DP GO DO : Type}

lemma setEvalModes_idem (st : MState GP DP GO DO) :
    setEvalModes (setEvalModes st) = setEvalModes st := rfl

lemma validate_state (ext : Ext GP DP GO DO) (cfg : Config) (msgLen : ℕ)
    (st : MState GP DP GO DO) (images messages : T2) :
    (validate_on_batch ext cfg msgLen st images messages).2 = setEvalModes st := by
  unfold validate_on_batch
  dsimp only
  repeat' split
  all_goals rfl

lemma validate_setEval (ext : Ext GP DP GO DO) (cfg : Config) (msgLen : ℕ)
    (st : MState GP DP GO DO) (images messages : T2) :
    validate_on_batch ext cfg msgLen (setEvalModes st) images messages
      = validate_on_batch ext cfg msgLen st images messages := by
  unfold validate_on_batch
  rw [setEvalModes_idem]

lemma discrimPhase_encDecFields (ext : Ext GP DP GO DO) (msgLen : ℕ)
    (st : MState GP DP GO DO) (images messages : T2) :
    (discrimPhase ext msgLen st images messages).2.1.encDecParams = st.encDecParams
    ∧ (discrimPhase ext msgLen st images messages).2.1.encDecOpt = st.encDecOpt
    ∧ (discrimPhase ext msgLen st images messages).2.1.encDecGrad = st.encDecGrad
    ∧ (discrimPhase ext msgLen st images messages).2.1.encDecMode = st.encDecMode
    ∧ (discrimPhase ext msgLen st images messages).2.1.discrimMode = st.discrimMode := by
  unfold discrimPhase
  dsimp only
  split <;>
    simp [zeroGradDiscrim, backwardOn, stepDiscrim, discrimApply, bceApply, leafT2,
      TR.detach, encDecApply]

lemma genPhase_discrimFields (ext : Ext GP DP GO DO) (cfg : Config)
    (st : MState GP DP GO DO) (images messages : T2) (ph : DPhaseOut) :
    (genPhase ext cfg st images messages ph).2.1.discrimParams = st.discrimParams
    ∧ (genPhase ext cfg st images messages ph).2.1.discrimOpt = st.discrimOpt
    ∧ (genPhase ext cfg st images messages ph).2.1.encDecMode = st.encDecMode
    ∧ (genPhase ext cfg st images messages ph).2.1.discrimMode = st.discrimMode := by
  unfold genPhase
  dsimp only
  repeat' split
  all_goals simp [zeroGradEncDec, backwardOn, stepEncDec]

lemma discrimPhase_encDecParams (ext : Ext GP DP GO DO) (msgLen : ℕ)
    (st : MState GP DP GO DO) (images messages : T2) :
    (discrimPhase ext msgLen st images messages).2.1.encDecParams = st.encDecParams :=
  (discrimPhase_encDecFields ext msgLen st images messages).1

lemma discrimPhase_encDecOpt (ext : Ext GP DP GO DO) (msgLen : ℕ)
    (st : MState GP DP GO DO) (images messages : T2) :
    (discrimPhase ext msgLen st images messages).2.1.encDecOpt = st.encDecOpt :=
  (discrimPhase_encDecFields ext msgLen st images messages).2.1

lemma discrimPhase_encDecGrad (ext : Ext GP DP GO DO) (msgLen : ℕ)
    (st : MState GP DP GO DO) (images messages : T2) :
    (discrimPhase ext msgLen st images messages).2.1.encDecGrad = st.encDecGrad :=
  (discrimPhase_encDecFields ext msgLen st images messages).2.2.1

lemma discrimPhase_encDecMode (ext : Ext GP DP GO DO) (msgLen : ℕ)
    (st : MState GP DP GO DO) (images messages : T2) :
    (discrimPhase ext msgLen st images messages).2.1.encDecMode = st.encDecMode :=
  (discrimPhase_encDecFields ext msgLen st images messages).2.2.2.1

lemma discrimPhase_discrimMode (ext : Ext GP DP GO DO) (msgLen : ℕ)
    (st : MState GP DP GO DO) (images messages : T2) :
    (discrimPhase ext msgLen st images messages).2.1.discrimMode = st.discrimMode :=
  (discrimPhase_encDecFields ext msgLen st images messages).2.2.2.2

lemma genPhase_discrimParams (ext : Ext GP DP GO DO) (cfg : Config)
    (st : MState GP DP GO DO) (images messages : T2) (ph : DPhaseOut) :
    (genPhase ext cfg st images messages ph).2.1.discrimParams = st.discrimParams :=
  (genPhase_discrimFields ext cfg st images messages ph).1

lemma genPhase_discrimOpt (ext : Ext GP DP GO DO) (cfg : Config)
    (st : MState GP DP GO DO) (images messages : T2) (ph : DPhaseOut) :
    (genPhase ext cfg st images messages ph).2.1.discrimOpt = st.discrimOpt :=
  (genPhase_discrimFields ext cfg st images messages ph).2.1

lemma genPhase_encDecMode (ext : Ext GP DP GO DO) (cfg : Config)
    (st : MState GP DP GO DO) (images messages : T2) (ph : DPhaseOut) :
    (genPhase ext cfg st images messages ph).2.1.encDecMode = st.encDecMode :=
  (genPhase_discrimFields ext cfg st images messages ph).2.2.1

lemma genPhase_discrimMode (ext : Ext GP DP GO DO) (cfg : Config)
    (st : MState GP DP GO DO) (images messages : T2) (ph : DPhaseOut) :
    (genPhase ext cfg st images messages ph).2.1.discrimMode = st.discrimMode :=
  (genPhase_discrimFields ext cfg st images messages ph).2.2.2

end FrameLemmas

/-- Claim C5: `validate_on_batch` never clears or steps either optimizer
and never mutates any parameter, gradient accumulator or optimizer state
(only the mode flags change); consequently calling it twice in a row with
the same inputs yields identical metrics. -/
theorem c5_validate_no_mutation {GP DP GO DO : Type} (ext : Ext GP DP GO DO)
    (cfg : Config) (msgLen : ℕ) (st : MState GP DP GO DO) (images messages : T2) :
    ((validate_on_batch ext cfg msgLen st images messages).2.encDecParams = st.encDecParams
    ∧ (validate_on_batch ext cfg msgLen st images messages).2.discrimParams = st.discrimParams
    ∧ (validate_on_batch ext cfg msgLen st images messages).2.encDecOpt = st.encDecOpt
    ∧ (validate_on_batch ext cfg msgLen st images messages).2.discrimOpt = st.discrimOpt
    ∧ (validate_on_batch ext cfg msgLen st images messages).2.encDecGrad = st.encDecGrad
    ∧ (validate_on_batch ext cfg msgLen st images messages).2.discrimGrad = st.discrimGrad)
    ∧ (validate_on_batch ext cfg msgLen
        ((validate_on_batch ext cfg msgLen st images messages).2) images messages).1
      = (validate_on_batch ext cfg msgLen st images messages).1 := by
  have h := validate_state ext cfg msgLen st images messages
  constructor
  · rw [h]
    exact ⟨rfl, rfl, rfl, rfl, rfl, rfl⟩
  · rw [h, validate_setEval]

/-- Claim C9: both the `__str__` and `__repr__` representations of the
orchestrator are exactly the encoder-decoder's own structural
description; the discriminator's parameters (hence its structure) do not
appear (the statement holds for every discriminator parameter value). -/
theorem c9_str_repr_delegate {GP DP GO DO : Type} (ext : Ext GP DP GO DO)
    (p : GP) (q : DP) (go : GO) (dopt : DO) (gr dr : List GradTag) (em dm : Mode) :
    unetModelStr ext ⟨p, q, go, dopt, gr, dr, em, dm⟩ = ext.encDecDesc p
    ∧ unetModelRepr ext ⟨p, q, go, dopt, gr, dr, em, dm⟩ = ext.encDecDesc p :=
  ⟨rfl, rfl⟩

/-- Claim C10: the mode switch is a persistent side effect: whatever the
entry modes, after `train_on_batch` both sub-models are left in training
mode and after `validate_on_batch` both are left in evaluation mode (the
prior mode is not restored). -/
theorem c10_mode_switch_persists {GP DP GO DO : Type} (ext : Ext GP DP GO DO)
    (cfg : Config) (msgLen : ℕ) (st : MState GP DP GO DO) (images messages : T2) :
    ((train_on_batch ext cfg msgLen st images messages).2.1.encDecMode = Mode.train
    ∧ (train_on_batch ext cfg msgLen st images messages).2.1.discrimMode = Mode.train)
    ∧ ((validate_on_batch ext cfg msgLen st images messages).2.encDecMode = Mode.eval
    ∧ (validate_on_batch ext cfg msgLen st images messages).2.discrimMode = Mode.eval) := by
  constructor
  · unfold train_on_batch
    dsimp only
    repeat' split
    all_goals constructor
    all_goals
      simp [genPhase_encDecMode, genPhase_discrimMode, discrimPhase_encDecMode,
        discrimPhase_discrimMode, setTrainModes]
  · rw [validate_state]
    exact ⟨rfl, rfl⟩

/-- Claim C1: on a well-shaped batch (and with the loss-weight keys
present, so the call completes), `train_on_batch` performs exactly the
two-phase protocol in this order: clear discriminator gradients, score
the real images, backpropagate the cover loss, run the encoder-decoder
forward pass, score the detached encoded images, backpropagate the
encoded loss, step the discriminator optimizer; then clear the
encoder-decoder gradients, re-score the non-detached encoded images,
backpropagate the joint loss and step the encoder-decoder optimizer.
The encoder-decoder forward event occurs exactly once: the single
forward pass is shared by both phases. -/
theorem c1_two_phase_protocol {GP DP GO DO : Type} (ext : Ext GP DP GO DO)
    (cfg : Config) (msgLen : ℕ) (st : MState GP DP GO DO) (images messages : T2)
    (hsh : shapeOkb msgLen images messages = true)
    (hwa : cfg.adv_loss_weight.isSome = true)
    (hwe : cfg.enc_loss_weight.isSome = true) :
    (train_on_batch ext cfg msgLen st images messages).2.2
      = [Ev.dZeroGrad, Ev.dForward DInp.cover, Ev.backwardEv GradTag.dLossOnCover,
         Ev.gForward, Ev.dForward DInp.encodedDetached,
         Ev.backwardEv GradTag.dLossOnEncoded, Ev.dStepEv,
         Ev.gZeroGrad, Ev.dForward DInp.encodedLive, Ev.backwardEv GradTag.gLoss,
         Ev.gStepEv]
    ∧ (train_on_batch ext cfg msgLen st images messages).2.2.count Ev.gForward = 1 := by
  obtain ⟨wa, hwa'⟩ := Option.isSome_iff_exists.mp hwa
  obtain ⟨we, hwe'⟩ := Option.isSome_iff_exists.mp hwe
  have htr : (train_on_batch ext cfg msgLen st images messages).2.2
      = [Ev.dZeroGrad, Ev.dForward DInp.cover, Ev.backwardEv GradTag.dLossOnCover,
         Ev.gForward, Ev.dForward DInp.encodedDetached,
         Ev.backwardEv GradTag.dLossOnEncoded, Ev.dStepEv,
         Ev.gZeroGrad, Ev.dForward DInp.encodedLive, Ev.backwardEv GradTag.gLoss,
         Ev.gStepEv] := by
    unfold train_on_batch discrimPhase genPhase encDecApply encDecChecked
    simp [hsh, hwa', hwe', leafT2, discrimApply, bceApply, mseApply, TR.detach]
  exact ⟨htr, by rw [htr]; rfl⟩

/-- Witness for C1: the protocol trace at a concrete batch of two
two-pixel images and two two-bit messages, with trivial external
networks and a full configuration. -/
theorem c1_two_phase_protocol_witness :
    (shapeOkb 2 imgs0 msgs0 = true
      ∧ cfgFull.adv_loss_weight.isSome = true
      ∧ cfgFull.enc_loss_weight.isSome = true)
    ∧ ((train_on_batch extTriv cfgFull 2 st0 imgs0 msgs0).2.2
        = [Ev.dZeroGrad, Ev.dForward DInp.cover, Ev.backwardEv GradTag.dLossOnCover,
           Ev.gForward, Ev.dForward DInp.encodedDetached,
           Ev.backwardEv GradTag.dLossOnEncoded, Ev.dStepEv,
           Ev.gZeroGrad, Ev.dForward DInp.encodedLive, Ev.backwardEv GradTag.gLoss,
           Ev.gStepEv]
      ∧ (train_on_batch extTriv cfgFull 2 st0 imgs0 msgs0).2.2.count Ev.gForward = 1) :=
  ⟨⟨by decide, rfl, rfl⟩,
   c1_two_phase_protocol extTriv cfgFull 2 st0 imgs0 msgs0 (by decide) rfl rfl⟩

/-- Claim C2: each optimizer step updates only its own parameter set.
Immediately after the discriminator step (the end of the discriminator
phase), the encoder-decoder parameters, optimizer state and gradient
accumulator are exactly as at entry — in particular, if the
encoder-decoder gradients were zero at entry they are still zero there,
because the discriminator-on-fake loss is computed on a gradient-detached
copy of the encoded images.  Dually, the generator phase leaves the
discriminator parameters and optimizer state untouched. -/
theorem c2_optimizer_isolation {GP DP GO DO : Type} (ext : Ext GP DP GO DO)
    (cfg : Config) (msgLen : ℕ) (st : MState GP DP GO DO) (images messages : T2)
    (hg : st.encDecGrad = []) :
    (discrimPhase ext msgLen (setTrainModes st) images messages).2.1.encDecParams
      = st.encDecParams
    ∧ (discrimPhase ext msgLen (setTrainModes st) images messages).2.1.encDecOpt
      = st.encDecOpt
    ∧ (discrimPhase ext msgLen (setTrainModes st) images messages).2.1.encDecGrad = []
    ∧ (train_on_batch ext cfg msgLen st images messages).2.1.discrimParams
      = (discrimPhase ext msgLen (setTrainModes st) images messages).2.1.discrimParams
    ∧ (train_on_batch ext cfg msgLen st images messages).2.1.discrimOpt
      = (discrimPhase ext msgLen (setTrainModes st) images messages).2.1.discrimOpt := by
  refine ⟨(discrimPhase_encDecParams ext msgLen (setTrainModes st) images messages).trans rfl,
    (discrimPhase_encDecOpt ext msgLen (setTrainModes st) images messages).trans rfl,
    (discrimPhase_encDecGrad ext msgLen (setTrainModes st) images messages).trans
      (by simpa [setTrainModes] using hg), ?_, ?_⟩ <;>
  · unfold train_on_batch
    dsimp only
    repeat' split
    all_goals simp [genPhase_discrimParams, genPhase_discrimOpt]

/-- Witness for C2 at a concrete batch with a fresh state (zero
gradients) and trivial external networks. -/
theorem c2_optimizer_isolation_witness :
    (st0.encDecGrad = [])
    ∧ ((discrimPhase extTriv 2 (setTrainModes st0) imgs0 msgs0).2.1.encDecParams
        = st0.encDecParams
      ∧ (discrimPhase extTriv 2 (setTrainModes st0) imgs0 msgs0).2.1.encDecOpt
        = st0.encDecOpt
      ∧ (discrimPhase extTriv 2 (setTrainModes st0) imgs0 msgs0).2.1.encDecGrad = []
      ∧ (train_on_batch extTriv cfgFull 2 st0 imgs0 msgs0).2.1.discrimParams
        = (discrimPhase extTriv 2 (setTrainModes st0) imgs0 msgs0).2.1.discrimParams
      ∧ (train_on_batch extTriv cfgFull 2 st0 imgs0 msgs0).2.1.discrimOpt
        = (discrimPhase extTriv 2 (setTrainModes st0) imgs0 msgs0).2.1.discrimOpt) :=
  ⟨rfl, c2_optimizer_isolation extTriv cfgFull 2 st0 imgs0 msgs0 rfl⟩

/-- Claim C3: in both `train_on_batch` and `validate_on_batch`, the
reported joint generator loss equals `adv_loss_weight` times the
adversarial loss plus `enc_loss_weight` times the encoder MSE plus
`dec_loss_weight` times the decoder MSE, where `dec_loss_weight`
defaults to `1` when the configuration omits it. -/
theorem c3_joint_loss_composition {GP DP GO DO : Type} (ext : Ext GP DP GO DO)
    (cfg : Config) (msgLen : ℕ) (st : MState GP DP GO DO) (images messages : T2)
    (wa we : ℚ)
    (hsh : shapeOkb msgLen images messages = true)
    (hwa : cfg.adv_loss_weight = some wa)
    (hwe : cfg.enc_loss_weight = some we) :
    (lookupLoss (lossesOf (train_on_batch ext cfg msgLen st images messages).1)
        LossNames.unet_loss
      = (wa : ℝ) * lookupLoss (lossesOf (train_on_batch ext cfg msgLen st images messages).1)
          LossNames.gen_adv_bce
        + (we : ℝ) * lookupLoss (lossesOf (train_on_batch ext cfg msgLen st images messages).1)
            LossNames.encoder_mse
        + ((cfg.dec_loss_weight.getD 1 : ℚ) : ℝ)
          * lookupLoss (lossesOf (train_on_batch ext cfg msgLen st images messages).1)
              LossNames.decoder_mse)
    ∧ (lookupLoss (lossesOf (validate_on_batch ext cfg msgLen st images messages).1)
        LossNames.unet_loss
      = (wa : ℝ) * lookupLoss (lossesOf (validate_on_batch ext cfg msgLen st images messages).1)
          LossNames.gen_adv_bce
        + (we : ℝ) * lookupLoss (lossesOf (validate_on_batch ext cfg msgLen st images messages).1)
            LossNames.encoder_mse
        + ((cfg.dec_loss_weight.getD 1 : ℚ) : ℝ)
          * lookupLoss (lossesOf (validate_on_batch ext cfg msgLen st images messages).1)
              LossNames.decoder_mse) := by
  constructor
  · simp [train_on_batch, discrimPhase, genPhase, encDecApply, encDecChecked, leafT2,
      discrimApply, bceApply, mseApply, TR.detach, hsh, hwa, hwe, lossesOf, lookupLoss]
  · simp [validate_on_batch, encDecChecked, setEvalModes, hsh, hwa, hwe, lossesOf,
      lookupLoss]

/-- Witness for C3 at a concrete batch with trivial external networks
and a full configuration. -/
theorem c3_joint_loss_composition_witness :
    (shapeOkb 2 imgs0 msgs0 = true
      ∧ cfgFull.adv_loss_weight = some 1
      ∧ cfgFull.enc_loss_weight = some 1)
    ∧ (lookupLoss (lossesOf (train_on_batch extTriv cfgFull 2 st0 imgs0 msgs0).1)
        LossNames.unet_loss
      = ((1 : ℚ) : ℝ) * lookupLoss (lossesOf (train_on_batch extTriv cfgFull 2 st0 imgs0 msgs0).1)
          LossNames.gen_adv_bce
        + ((1 : ℚ) : ℝ) * lookupLoss (lossesOf (train_on_batch extTriv cfgFull 2 st0 imgs0 msgs0).1)
            LossNames.encoder_mse
        + ((cfgFull.dec_loss_weight.getD 1 : ℚ) : ℝ)
          * lookupLoss (lossesOf (train_on_batch extTriv cfgFull 2 st0 imgs0 msgs0).1)
              LossNames.decoder_mse) :=
  ⟨⟨by decide, rfl, rfl⟩,
   (c3_joint_loss_composition extTriv cfgFull 2 st0 imgs0 msgs0 1 1
     (by decide) rfl rfl).1⟩

/-- Claim C6: for every valid batch (well-shaped inputs, weight keys
present with non-negative values), `train_on_batch` and
`validate_on_batch` each return a loss mapping with exactly the seven
defined keys in the defined order, every value non-negative (values are
real numbers of the embedding, hence finite).  The reason is marked
spec-modelled because the key enumeration `LossNames` lives in
`wm/train/loss_names.py`, which is not under `src/`. -/
theorem c6_seven_finite_nonneg_losses {GP DP GO DO : Type} (ext : Ext GP DP GO DO)
    (cfg : Config) (msgLen : ℕ) (st : MState GP DP GO DO) (images messages : T2)
    (wa we : ℚ)
    (hsh : shapeOkb msgLen images messages = true)
    (hwa : cfg.adv_loss_weight = some wa)
    (hwe : cfg.enc_loss_weight = some we)
    (hwaN : 0 ≤ wa) (hweN : 0 ≤ we) (hwdN : 0 ≤ cfg.dec_loss_weight.getD 1) :
    ((lossesOf (train_on_batch ext cfg msgLen st images messages).1).map Prod.fst
        = [LossNames.unet_loss, LossNames.encoder_mse, LossNames.decoder_mse,
           LossNames.bitwise, LossNames.gen_adv_bce, LossNames.discr_cov_bce,
           LossNames.discr_enc_bce]
      ∧ ∀ p ∈ lossesOf (train_on_batch ext cfg msgLen st images messages).1, 0 ≤ p.2)
    ∧ ((lossesOf (validate_on_batch ext cfg msgLen st images messages).1).map Prod.fst
        = [LossNames.unet_loss, LossNames.encoder_mse, LossNames.decoder_mse,
           LossNames.bitwise, LossNames.gen_adv_bce, LossNames.discr_cov_bce,
           LossNames.discr_enc_bce]
      ∧ ∀ p ∈ lossesOf (validate_on_batch ext cfg msgLen st images messages).1, 0 ≤ p.2) := by
  have hwaR : (0 : ℝ) ≤ (wa : ℝ) := by exact_mod_cast hwaN
  have hweR : (0 : ℝ) ≤ (we : ℝ) := by exact_mod_cast hweN
  have hwdR : (0 : ℝ) ≤ ((cfg.dec_loss_weight.getD 1 : ℚ) : ℝ) := by exact_mod_cast hwdN
  have hcov : ∀ s : List ℝ, 0 ≤ bceMean s cover_label := fun s =>
    bceMean_nonneg s cover_label (by norm_num [cover_label]) (by norm_num [cover_label])
  have henc : ∀ s : List ℝ, 0 ≤ bceMean s encoded_label := fun s =>
    bceMean_nonneg s encoded_label (by norm_num [encoded_label]) (by norm_num [encoded_label])
  have hmse : ∀ a b : T2, (0 : ℝ) ≤ ((mse_loss a b : ℚ) : ℝ) := fun a b => by
    exact_mod_cast mse_loss_nonneg a b
  have hbit : ∀ (n l : ℕ) (d m : T2), (0 : ℝ) ≤ ((bitwise_avg_err n l d m : ℚ) : ℝ) :=
    fun n l d m => by exact_mod_cast bitwise_avg_err_nonneg n l d m
  constructor
  · constructor
    · simp [train_on_batch, discrimPhase, genPhase, encDecApply, encDecChecked, leafT2,
        discrimApply, bceApply, mseApply, TR.detach, hsh, hwa, hwe, lossesOf]
    · intro p hp
      simp only [train_on_batch, discrimPhase, genPhase, encDecApply, encDecChecked, leafT2,
        discrimApply, bceApply, mseApply, TR.detach, hsh, hwa, hwe, lossesOf, if_true,
        List.mem_cons, List.not_mem_nil, or_false] at hp
      rcases hp with h | h | h | h | h | h | h <;> subst h <;> dsimp only
      · exact add_nonneg (add_nonneg (mul_nonneg hwaR (hcov _)) (mul_nonneg hweR (hmse _ _)))
          (mul_nonneg hwdR (hmse _ _))
      · exact hmse _ _
      · exact hmse _ _
      · exact hbit _ _ _ _
      · exact hcov _
      · exact hcov _
      · exact henc _
  · constructor
    · simp [validate_on_batch, encDecChecked, setEvalModes, hsh, hwa, hwe, lossesOf]
    · intro p hp
      simp only [validate_on_batch, encDecChecked, setEvalModes, hsh, hwa, hwe, lossesOf,
        if_true, List.mem_cons, List.not_mem_nil, or_false] at hp
      rcases hp with h | h | h | h | h | h | h <;> subst h <;> dsimp only
      · exact add_nonneg (add_nonneg (mul_nonneg hwaR (hcov _)) (mul_nonneg hweR (hmse _ _)))
          (mul_nonneg hwdR (hmse _ _))
      · exact hmse _ _
      · exact hmse _ _
      · exact hbit _ _ _ _
      · exact hcov _
      · exact hcov _
      · exact henc _

/-- Witness for C6 at a concrete batch with trivial external networks,
unit weights and a full configuration. -/
theorem c6_seven_finite_nonneg_losses_witness :
    (shapeOkb 2 imgs0 msgs0 = true
      ∧ cfgFull.adv_loss_weight = some 1
      ∧ cfgFull.enc_loss_weight = some 1
      ∧ 0 ≤ (1 : ℚ) ∧ 0 ≤ cfgFull.dec_loss_weight.getD 1)
    ∧ ((lossesOf (train_on_batch extTriv cfgFull 2 st0 imgs0 msgs0).1).map Prod.fst
        = [LossNames.unet_loss, LossNames.encoder_mse, LossNames.decoder_mse,
           LossNames.bitwise, LossNames.gen_adv_bce, LossNames.discr_cov_bce,
           LossNames.discr_enc_bce]
      ∧ ∀ p ∈ lossesOf (train_on_batch extTriv cfgFull 2 st0 imgs0 msgs0).1, 0 ≤ p.2) :=
  ⟨⟨by decide, rfl, rfl, by decide, by decide⟩,
   (c6_seven_finite_nonneg_losses extTriv cfgFull 2 st0 imgs0 msgs0 1 1
     (by decide) rfl rfl (by decide) (by decide) (by decide)).1⟩

/-- Counterexample to C7 as stated: with every constructor-read key
present but `adv_loss_weight` absent, construction succeeds — the
missing required key is not surfaced at construction time. -/
theorem c7_counterexample :
    cfgNoAdv.adv_loss_weight = none ∧ (initModel cfgNoAdv).isOk = true :=
  ⟨rfl, rfl⟩

/-- Claim C7 (amended): construction fails with a key error exactly when
one of the ten keys read by `__init__` (device, noise, main_command,
message, encoder_blocks, decoder_blocks, decoder_channels,
decoder_block_type, discriminator_channels, discriminator_blocks) is
absent; `adv_loss_weight` is not read at construction, so its absence
leaves construction successful and surfaces as a key error at the first
`train_on_batch` call instead. -/
theorem c7_construction_key_errors {GP DP GO DO : Type} (ext : Ext GP DP GO DO)
    (cfg : Config) (msgLen : ℕ) (st : MState GP DP GO DO) (images messages : T2) :
    ((initModel cfg).isOk = true
      ↔ (cfg.device.isSome = true ∧ cfg.noise.isSome = true
        ∧ cfg.main_command.isSome = true ∧ cfg.message.isSome = true
        ∧ cfg.encoder_blocks.isSome = true ∧ cfg.decoder_blocks.isSome = true
        ∧ cfg.decoder_channels.isSome = true ∧ cfg.decoder_block_type.isSome = true
        ∧ cfg.discriminator_channels.isSome = true
        ∧ cfg.discriminator_blocks.isSome = true))
    ∧ (cfg.adv_loss_weight = none → shapeOkb msgLen images messages = true →
        (train_on_batch ext cfg msgLen st images messages).1
          = Except.error (Err.keyError CfgKey.adv_loss_weight)) := by
  constructor
  · unfold initModel
    repeat' split
    all_goals simp_all [Except.isOk, Except.toBool]
  · intro hadv hsh
    unfold train_on_batch discrimPhase genPhase encDecApply encDecChecked
    simp [hsh, hadv, leafT2, discrimApply, bceApply, mseApply, TR.detach]

/-- Witness for C7 (amended) at the concrete configuration missing only
`adv_loss_weight`: construction succeeds, training raises the key
error. -/
theorem c7_construction_key_errors_witness :
    (cfgNoAdv.adv_loss_weight = none ∧ shapeOkb 2 imgs0 msgs0 = true)
    ∧ ((initModel cfgNoAdv).isOk = true
      ↔ (cfgNoAdv.device.isSome = true ∧ cfgNoAdv.noise.isSome = true
        ∧ cfgNoAdv.main_command.isSome = true ∧ cfgNoAdv.message.isSome = true
        ∧ cfgNoAdv.encoder_blocks.isSome = true ∧ cfgNoAdv.decoder_blocks.isSome = true
        ∧ cfgNoAdv.decoder_channels.isSome = true
        ∧ cfgNoAdv.decoder_block_type.isSome = true
        ∧ cfgNoAdv.discriminator_channels.isSome = true
        ∧ cfgNoAdv.discriminator_blocks.isSome = true))
    ∧ (train_on_batch extTriv cfgNoAdv 2 st0 imgs0 msgs0).1
        = Except.error (Err.keyError CfgKey.adv_loss_weight) :=
  ⟨⟨rfl, by decide⟩,
   (c7_construction_key_errors extTriv cfgNoAdv 2 st0 imgs0 msgs0).1,
   (c7_construction_key_errors extTriv cfgNoAdv 2 st0 imgs0 msgs0).2 rfl (by decide)⟩

/-- Counterexample to C8 as stated: a well-shaped batch on which
`train_on_batch` nevertheless fails — with a missing-configuration-key
error, not a shape mismatch — refuting that malformed input shapes are
the only error condition. -/
theorem c8_counterexample :
    shapeOkb 2 imgs0 msgs0 = true
    ∧ (train_on_batch extTriv cfgNoAdv 2 st0 imgs0 msgs0).1
        = Except.error (Err.keyError CfgKey.adv_loss_weight) := by
  constructor
  · decide
  · unfold train_on_batch discrimPhase genPhase encDecApply encDecChecked
    simp [leafT2, discrimApply, bceApply, mseApply, TR.detach, cfgNoAdv, shapeOkb,
      imgs0, msgs0]

/-- Claim C8 (amended): `train_on_batch` and `validate_on_batch` fail
with a `ShapeMismatch` error exactly when the batch dimensions disagree
or a message row differs from the configured length (the check is
modelled from the spec inside the encoder-decoder forward pass), but
malformed shapes are not the only error condition: on well-shaped input
the calls fail with a missing-key error when `adv_loss_weight` or
`enc_loss_weight` is absent, and succeed otherwise. -/
theorem c8_shape_and_key_error_conditions {GP DP GO DO : Type} (ext : Ext GP DP GO DO)
    (cfg : Config) (msgLen : ℕ) (st : MState GP DP GO DO) (images messages : T2) :
    ((train_on_batch ext cfg msgLen st images messages).1 = Except.error Err.shapeMismatch
      ↔ shapeOkb msgLen images messages = false)
    ∧ ((train_on_batch ext cfg msgLen st images messages).1.isOk = false
      ↔ (shapeOkb msgLen images messages = false ∨ cfg.adv_loss_weight = none
          ∨ cfg.enc_loss_weight = none))
    ∧ ((validate_on_batch ext cfg msgLen st images messages).1
          = Except.error Err.shapeMismatch
      ↔ shapeOkb msgLen images messages = false)
    ∧ ((validate_on_batch ext cfg msgLen st images messages).1.isOk = false
      ↔ (shapeOkb msgLen images messages = false ∨ cfg.adv_loss_weight = none
          ∨ cfg.enc_loss_weight = none)) := by
  cases hshv : shapeOkb msgLen images messages with
  | false =>
    unfold train_on_batch validate_on_batch discrimPhase encDecApply encDecChecked
    simp [hshv, leafT2, discrimApply, bceApply, setEvalModes, Except.isOk, Except.toBool]
  | true =>
    rcases hadv : cfg.adv_loss_weight with _ | wa
    · unfold train_on_batch validate_on_batch discrimPhase genPhase encDecApply encDecChecked
      simp [hshv, hadv, leafT2, discrimApply, bceApply, mseApply, TR.detach, setEvalModes,
        Except.isOk, Except.toBool]
    · rcases henc : cfg.enc_loss_weight with _ | we
      · unfold train_on_batch validate_on_batch discrimPhase genPhase encDecApply
          encDecChecked
        simp [hshv, hadv, henc, leafT2, discrimApply, bceApply, mseApply, TR.detach,
          setEvalModes, Except.isOk, Except.toBool]
      · unfold train_on_batch validate_on_batch discrimPhase genPhase encDecApply
          encDecChecked
        simp [hshv, hadv, henc, leafT2, discrimApply, bceApply, mseApply, TR.detach,
          setEvalModes, Except.isOk, Except.toBool]

end HiddenWm
